import Mathlib

/-!
Verification of the QS POSIX port (`src/qpcpp/ports/posix/qs_port.cpp`).

The file shallowly embeds the transport-pump logic of the port:
the send-retry loops of `QS::onFlush` (lines 213-238) and `QS_output`
(lines 271-296), the chunk-drain loop of `QS::onFlush` (lines 209-243),
the single-chunk body of `QS_output` (lines 266-302), the receive path
`QS_rx_input` (lines 305-313), the candidate-connect loop of
`QS::onStartup` (lines 129-140), the endpoint parsing of `QS::onStartup`
(lines 97-113), and the clock conversion of `QS::onGetTime` (line 252).

Socket calls are modelled by an oracle: a list of `SendRes` values, one
per `send()` call, in the order the loop issues them.  Chunks returned by
`QS::getBlock` are modelled as the list of byte blocks the ring buffer
hands out during the drain.  Each embedded operation also produces a
trace of externally visible events (`Ev`): critical-section enter/exit,
`getBlock` calls with the requested size, `send()` calls with the exact
byte span passed, backoff sleeps, and error diagnostics.
-/

/-- Constant `QS_TX_SIZE` from line 62 of the source: `8*1024`. -/
def QS_TX_SIZE : Nat := 8 * 1024

/-- Constant `QS_TX_CHUNK` from line 64 of the source: equal to `QS_TX_SIZE`. -/
def QS_TX_CHUNK : Nat := QS_TX_SIZE

/-- Constant `INVALID_SOCKET` from line 67 of the source. -/
def INVALID_SOCKET : Int := -1

/-- Linux `errno` value `EWOULDBLOCK`. -/
def EWOULDBLOCK : Nat := 11

/-- Linux `errno` value `EAGAIN` (equal to `EWOULDBLOCK` on Linux). -/
def EAGAIN : Nat := 11

/-- Outcome of one `send()` call, as the loops at lines 214-237 and
272-295 observe it: either `SOCKET_ERROR` with some `errno` value, or a
non-negative count of accepted bytes. -/
inductive SendRes where
  | fail (e : Nat)
  | ok (m : Nat)
deriving DecidableEq, Repr

/-- Externally visible events of the embedded operations. -/
inductive Ev where
  | critEnter
  | critExit
  | fetch (req : Nat)
  | attempt (data : List Nat)
  | sleep
  | errSend (e : Nat)
  | errInvalid
  | recvAttempt
deriving DecidableEq, Repr

/-- Predicate `Ev.isAttempt ev` holds exactly on `send()`-call events. -/
def Ev.isAttempt : Ev → Bool
  | .attempt _ => true
  | _ => false

/-- Predicate `Ev.isErrSend ev` holds exactly on send-error diagnostics. -/
def Ev.isErrSend : Ev → Bool
  | .errSend _ => true
  | _ => false

/-- Predicate `Ev.isFetch ev` holds exactly on `getBlock` calls. -/
def Ev.isFetch : Ev → Bool
  | .fetch _ => true
  | _ => false

/-- How the inner for-ever send loop was left: `brk` for the `break` at
line 236 (chunk fully sent), `ret` for the `return` at line 226 (hard
socket error), `noFuel` when the oracle ran out of responses while the
loop would have kept retrying. -/
inductive LoopExit where
  | brk
  | ret
  | noFuel
deriving DecidableEq, Repr

/-- Result of running the inner send loop on one chunk: the event trace,
the bytes the socket accepted (in order), the unconsumed oracle suffix,
and the way the loop exited. -/
structure LoopRes where
  evs : List Ev
  acc : List Nat
  rest : List SendRes
  ex : LoopExit
deriving DecidableEq, Repr

/-- The for-ever send loop of `QS::onFlush`, lines 213-238 of the source.
`data` is the unsent span of the current chunk (the `data`/`nBytes` pair;
`nBytes = data.length`).  Each oracle entry answers one `send()` call:
`SOCKET_ERROR` with `errno ∈ {EWOULDBLOCK, EAGAIN}` sleeps and retries the
same span (lines 216-221); any other `errno` prints the diagnostic and
returns (lines 222-227); `nSent < nBytes` sleeps, advances `data` by
`nSent` and shrinks `nBytes` (lines 229-234); otherwise the loop breaks
(line 236). -/
def sendLoopFlush : List SendRes → List Nat → LoopRes
  | [], _ => ⟨[], [], [], .noFuel⟩
  | .fail e :: rs, data =>
    if e = EWOULDBLOCK ∨ e = EAGAIN then
      let r := sendLoopFlush rs data
      ⟨.attempt data :: .sleep :: r.evs, r.acc, r.rest, r.ex⟩
    else
      ⟨[.attempt data, .errSend e], [], rs, .ret⟩
  | .ok m :: rs, data =>
    if m < data.length then
      let r := sendLoopFlush rs (data.drop m)
      ⟨.attempt data :: .sleep :: r.evs, data.take m ++ r.acc, r.rest, r.ex⟩
    else
      ⟨[.attempt data], data, rs, .brk⟩

/-- The for-ever send loop of `QS_output`, lines 271-296 of the source,
embedded separately from `sendLoopFlush` because the source spells the
loop out twice; its body is line-for-line the same as lines 213-238. -/
def sendLoopOutput : List SendRes → List Nat → LoopRes
  | [], _ => ⟨[], [], [], .noFuel⟩
  | .fail e :: rs, data =>
    if e = EWOULDBLOCK ∨ e = EAGAIN then
      let r := sendLoopOutput rs data
      ⟨.attempt data :: .sleep :: r.evs, r.acc, r.rest, r.ex⟩
    else
      ⟨[.attempt data, .errSend e], [], rs, .ret⟩
  | .ok m :: rs, data =>
    if m < data.length then
      let r := sendLoopOutput rs (data.drop m)
      ⟨.attempt data :: .sleep :: r.evs, data.take m ++ r.acc, r.rest, r.ex⟩
    else
      ⟨[.attempt data], data, rs, .brk⟩

/-- Overall outcome of a flush/output call: `completed` (drained, normal
return), `aborted` (hard send error, early `return`), `starved` (oracle
exhausted mid-chunk), `noSocket` (the invalid-socket precondition check
fired). -/
inductive FlushOut where
  | completed
  | aborted
  | starved
  | noSocket
deriving DecidableEq, Repr

/-- Result of a flush/output call: event trace, bytes accepted by the
socket in order, the socket handle after the call, and the outcome. -/
structure FlushRes where
  evs : List Ev
  acc : List Nat
  sock : Int
  out : FlushOut
deriving DecidableEq, Repr

/-- The `while ((data = getBlock(&nBytes)) != 0)` drain loop of
`QS::onFlush`, lines 209-243: enter the critical section, call
`getBlock` with `QS_TX_CHUNK`; on a block, leave the critical section,
run the send loop, and continue with the next block; when `getBlock`
returns null, leave the critical section and return.  `chunks` is the
sequence of blocks `getBlock` yields during this drain. -/
def flushGo (sock : Int) : List (List Nat) → List SendRes → FlushRes
  | [], _ => ⟨[.critEnter, .fetch QS_TX_CHUNK, .critExit], [], sock, .completed⟩
  | c :: cs, rs =>
    let r := sendLoopFlush rs c
    match r.ex with
    | .brk =>
      let r2 := flushGo sock cs r.rest
      ⟨.critEnter :: .fetch QS_TX_CHUNK :: .critExit :: (r.evs ++ r2.evs),
       r.acc ++ r2.acc, sock, r2.out⟩
    | .ret =>
      ⟨.critEnter :: .fetch QS_TX_CHUNK :: .critExit :: r.evs, r.acc, sock, .aborted⟩
    | .noFuel =>
      ⟨.critEnter :: .fetch QS_TX_CHUNK :: .critExit :: r.evs, r.acc, sock, .starved⟩

/-- Function `QS::onFlush`, lines 199-244: if `l_sock` is invalid, print the
diagnostic and return (lines 204-207); otherwise run the drain loop.
The socket handle is never written. -/
def QS_onFlush (sock : Int) (chunks : List (List Nat)) (rs : List SendRes) : FlushRes :=
  if sock = INVALID_SOCKET then ⟨[.errInvalid], [], sock, .noSocket⟩
  else flushGo sock chunks rs

/-- Function `QS_output`, lines 257-303: the same invalid-socket check (lines
261-264), then one `getBlock` call with `QS_TX_CHUNK` under the critical
section (lines 266-269); on a block, leave the critical section and run
the send loop once; on null, just leave the critical section (line 301).
`chunks` is the ring-buffer content; `QS_output` consumes at most its
head. -/
def QS_output (sock : Int) (chunks : List (List Nat)) (rs : List SendRes) : FlushRes :=
  if sock = INVALID_SOCKET then ⟨[.errInvalid], [], sock, .noSocket⟩
  else
    match chunks with
    | [] => ⟨[.critEnter, .fetch QS_TX_CHUNK, .critExit], [], sock, .completed⟩
    | c :: _ =>
      let r := sendLoopOutput rs c
      match r.ex with
      | .brk =>
        ⟨.critEnter :: .fetch QS_TX_CHUNK :: .critExit :: r.evs, r.acc, sock, .completed⟩
      | .ret =>
        ⟨.critEnter :: .fetch QS_TX_CHUNK :: .critExit :: r.evs, r.acc, sock, .aborted⟩
      | .noFuel =>
        ⟨.critEnter :: .fetch QS_TX_CHUNK :: .critExit :: r.evs, r.acc, sock, .starved⟩

/-- The receive-window cursors `QS::rxPriv_.head` and `QS::rxPriv_.tail`
touched by `QS_rx_input`. -/
structure RxPriv where
  head : Nat
  tail : Nat
deriving DecidableEq, Repr

/-- Function `QS_rx_input`, lines 305-313: one `recv()` call (no socket-validity
check and no diagnostic on any path); if the result is positive, set
`tail := 0`, `head := status`, and invoke `rxParse` (the returned `Bool`
records whether `rxParse` ran); otherwise nothing happens.  `recvRes` is
the oracle for the `recv()` return value; on an invalid socket handle
`recv` fails, so `recvRes` is negative there. -/
def QS_rx_input (sock : Int) (recvRes : Int) (st : RxPriv) : List Ev × RxPriv × Bool :=
  if 0 < recvRes then ([.recvAttempt], ⟨recvRes.toNat, 0⟩, true)
  else ([.recvAttempt], st, false)

/-- One `addrinfo` candidate of the connect loop, lines 129-140: `ret`
is what `socket()` returns for it (`-1` on failure, a descriptor
otherwise), `connOk` whether `connect()` on that descriptor succeeds. -/
structure Cand where
  ret : Int
  connOk : Bool
deriving DecidableEq, Repr

/-- The candidate loop of `QS::onStartup`, lines 129-140: for each
candidate, `l_sock = socket(...)`; if that is not `INVALID_SOCKET`, try
`connect` — on failure close the socket and set `l_sock` to
`INVALID_SOCKET` — and then `break` unconditionally (line 138); if
`socket()` failed, move to the next candidate.  Returns the number of
candidates the loop body ran on and the final `l_sock`.  `sock0` is
`l_sock` before the loop. -/
def tryCandidates (sock0 : Int) : List Cand → Nat × Int
  | [] => (0, sock0)
  | c :: rest =>
    if c.ret ≠ INVALID_SOCKET then
      (1, if c.connOk then c.ret else INVALID_SOCKET)
    else
      let p := tryCandidates c.ret rest
      (p.1 + 1, p.2)

/-- Modelled from the spec: the candidate iteration as the spec words it
("iterates candidates in order ... stops at first successful connect,
skips ones where socket creation or connect fails"), for comparison with
`tryCandidates`. -/
def tryCandidatesSpec (sock0 : Int) : List Cand → Nat × Int
  | [] => (0, sock0)
  | c :: rest =>
    if c.ret ≠ INVALID_SOCKET ∧ c.connOk then (1, c.ret)
    else
      let p := tryCandidatesSpec INVALID_SOCKET rest
      (p.1 + 1, p.2)

/-- Capacity of the host-copy loop at lines 102-107: `hostName` is
`char[128]` and the guard is `dst < &hostName[sizeof(hostName) - 1]`,
so at most 127 characters are copied. -/
def HOSTNAME_CAP : Nat := 127

/-- The host-extraction loop at lines 102-107: copy from `src` while the
character is neither the terminator nor a colon and fewer than `n`
characters have been copied.  Returns the copied host characters and
the remainder of `src` from the final scan position. -/
def extractHost : List Char → Nat → List Char × List Char
  | [], _ => ([], [])
  | c :: rest, n =>
    if c = ':' then ([], c :: rest)
    else if n = 0 then ([], c :: rest)
    else
      let p := extractHost rest (n - 1)
      (c :: p.1, p.2)

/-- Endpoint parsing of `QS::onStartup`, lines 97-113: `src` is the
`arg` string, or `"localhost"` when `arg` is null; the host is what the
copy loop extracts under the 127-character cap; the service is the text
after the scan position if the scan stopped on `':'` (lines 111-113),
and the default `"6601"` (line 83) otherwise. -/
def parseEndpoint (arg : Option (List Char)) : List Char × List Char :=
  let src := arg.getD "localhost".toList
  let p := extractHost src HOSTNAME_CAP
  match p.2 with
  | c :: s => if c = ':' then (p.1, s) else (p.1, "6601".toList)
  | [] => (p.1, "6601".toList)

/-- The bytes the host-copy code writes into the `hostName` buffer for a
given `src`: the extracted host characters followed by the terminating
NUL written at line 108. -/
def hostWrites (src : List Char) : List Char :=
  (extractHost src HOSTNAME_CAP).1 ++ [Char.ofNat 0]

/-- Function `QS::onGetTime`, line 252: convert a monotonic `timespec` reading to
units of 0.1 microsecond: `tv_sec * 10000000 + tv_nsec / 100`. -/
def onGetTime (sec nsec : Nat) : Nat :=
  sec * 10000000 + nsec / 100

/-! ### Helper lemmas about the send loops -/

/-- The two spelled-out send loops compute the same function. -/
theorem sendLoopOutput_eq_sendLoopFlush :
    ∀ (rs : List SendRes) (data : List Nat),
      sendLoopOutput rs data = sendLoopFlush rs data := by
  intro rs
  induction rs with
  | nil => intro data; rfl
  | cons r rs ih =>
    intro data
    cases r with
    | fail e =>
      by_cases he : e = EWOULDBLOCK ∨ e = EAGAIN
      · simp [sendLoopFlush, sendLoopOutput, he, ih]
      · simp [sendLoopFlush, sendLoopOutput, he]
    | ok m =>
      by_cases hm : m < data.length
      · simp [sendLoopFlush, sendLoopOutput, hm, ih]
      · simp [sendLoopFlush, sendLoopOutput, hm]

/-- If the send loop exits through `break`, the socket accepted exactly
the whole chunk. -/
theorem sendLoopFlush_brk_acc :
    ∀ (rs : List SendRes) (data : List Nat),
      (sendLoopFlush rs data).ex = .brk → (sendLoopFlush rs data).acc = data := by
  intro rs
  induction rs with
  | nil => intro data h; simp [sendLoopFlush] at h
  | cons r rs ih =>
    intro data h
    cases r with
    | fail e =>
      by_cases he : e = EWOULDBLOCK ∨ e = EAGAIN
      · simp only [sendLoopFlush, if_pos he] at h ⊢
        exact ih data h
      · simp [sendLoopFlush, he] at h
    | ok m =>
      by_cases hm : m < data.length
      · simp only [sendLoopFlush, if_pos hm] at h ⊢
        rw [ih _ h]
        exact List.take_append_drop m data
      · simp [sendLoopFlush, hm]

/-- The send loop never calls `getBlock`: no fetch event appears in its
trace. -/
theorem sendLoopFlush_no_fetch :
    ∀ (rs : List SendRes) (data : List Nat) (req : Nat),
      Ev.fetch req ∉ (sendLoopFlush rs data).evs := by
  intro rs
  induction rs with
  | nil => intro data req; simp [sendLoopFlush]
  | cons r rs ih =>
    intro data req
    cases r with
    | fail e =>
      by_cases he : e = EWOULDBLOCK ∨ e = EAGAIN
      · simp only [sendLoopFlush, if_pos he]
        simp [ih data req]
      · simp [sendLoopFlush, he]
    | ok m =>
      by_cases hm : m < data.length
      · simp only [sendLoopFlush, if_pos hm]
        simp [ih (data.drop m) req]
      · simp [sendLoopFlush, hm]

/-- The send loop never prints the invalid-socket diagnostic. -/
theorem sendLoopFlush_no_errInvalid :
    ∀ (rs : List SendRes) (data : List Nat),
      Ev.errInvalid ∉ (sendLoopFlush rs data).evs := by
  intro rs
  induction rs with
  | nil => intro data; simp [sendLoopFlush]
  | cons r rs ih =>
    intro data
    cases r with
    | fail e =>
      by_cases he : e = EWOULDBLOCK ∨ e = EAGAIN
      · simp only [sendLoopFlush, if_pos he]
        simp [ih data]
      · simp [sendLoopFlush, he]
    | ok m =>
      by_cases hm : m < data.length
      · simp only [sendLoopFlush, if_pos hm]
        simp [ih (data.drop m)]
      · simp [sendLoopFlush, hm]

/-- A send loop that does not exit through the hard-error `return`
prints no send-error diagnostic. -/
theorem sendLoopFlush_not_ret_no_err :
    ∀ (rs : List SendRes) (data : List Nat),
      (sendLoopFlush rs data).ex ≠ .ret →
      (sendLoopFlush rs data).evs.countP Ev.isErrSend = 0 := by
  intro rs
  induction rs with
  | nil => intro data _; simp [sendLoopFlush]
  | cons r rs ih =>
    intro data h
    cases r with
    | fail e =>
      by_cases he : e = EWOULDBLOCK ∨ e = EAGAIN
      · simp only [sendLoopFlush, if_pos he] at h ⊢
        simp [List.countP_cons, Ev.isErrSend, ih data h]
      · simp [sendLoopFlush, he] at h
    | ok m =>
      by_cases hm : m < data.length
      · simp only [sendLoopFlush, if_pos hm] at h ⊢
        simp [List.countP_cons, Ev.isErrSend, ih (data.drop m) h]
      · simp [sendLoopFlush, hm, List.countP_cons, Ev.isErrSend]

/-- A send loop that exits through the hard-error `return` ends its
trace with the one send-error diagnostic, and prints no other. -/
theorem sendLoopFlush_ret_evs :
    ∀ (rs : List SendRes) (data : List Nat),
      (sendLoopFlush rs data).ex = .ret →
      ∃ pre e, (sendLoopFlush rs data).evs = pre ++ [Ev.errSend e] ∧
        pre.countP Ev.isErrSend = 0 := by
  intro rs
  induction rs with
  | nil => intro data h; simp [sendLoopFlush] at h
  | cons r rs ih =>
    intro data h
    cases r with
    | fail e =>
      by_cases he : e = EWOULDBLOCK ∨ e = EAGAIN
      · simp only [sendLoopFlush, if_pos he] at h ⊢
        obtain ⟨pre, e', hevs, hcnt⟩ := ih data h
        refine ⟨Ev.attempt data :: Ev.sleep :: pre, e', ?_, ?_⟩
        · simp [hevs]
        · simp [List.countP_cons, Ev.isErrSend, hcnt]
      · simp only [sendLoopFlush, if_neg he]
        exact ⟨[Ev.attempt data], e, rfl, by simp [List.countP_cons, Ev.isErrSend]⟩
    | ok m =>
      by_cases hm : m < data.length
      · simp only [sendLoopFlush, if_pos hm] at h ⊢
        obtain ⟨pre, e', hevs, hcnt⟩ := ih (data.drop m) h
        refine ⟨Ev.attempt data :: Ev.sleep :: pre, e', ?_, ?_⟩
        · simp [hevs]
        · simp [List.countP_cons, Ev.isErrSend, hcnt]
      · simp [sendLoopFlush, hm] at h

/-- If the drain loop finishes normally, the socket accepted exactly the
concatenation of the chunks. -/
theorem flushGo_completed_acc :
    ∀ (sock : Int) (chunks : List (List Nat)) (rs : List SendRes),
      (flushGo sock chunks rs).out = .completed →
      (flushGo sock chunks rs).acc = chunks.flatten := by
  intro sock chunks
  induction chunks with
  | nil => intro rs _; simp [flushGo]
  | cons c cs ih =>
    intro rs h
    rcases hex : (sendLoopFlush rs c).ex with _ | _ | _
    · simp only [flushGo, hex] at h ⊢
      rw [sendLoopFlush_brk_acc rs c hex, ih _ h, List.flatten_cons]
    · simp [flushGo, hex] at h
    · simp [flushGo, hex] at h

/-- If the drain loop aborts, its trace ends with exactly one send-error
diagnostic and nothing follows it. -/
theorem flushGo_aborted_evs :
    ∀ (sock : Int) (chunks : List (List Nat)) (rs : List SendRes),
      (flushGo sock chunks rs).out = .aborted →
      ∃ pre e, (flushGo sock chunks rs).evs = pre ++ [Ev.errSend e] ∧
        pre.countP Ev.isErrSend = 0 := by
  intro sock chunks
  induction chunks with
  | nil => intro rs h; simp [flushGo] at h
  | cons c cs ih =>
    intro rs h
    rcases hex : (sendLoopFlush rs c).ex with _ | _ | _
    · simp only [flushGo, hex] at h ⊢
      obtain ⟨pre, e, hevs, hcnt⟩ := ih _ h
      have hnr : (sendLoopFlush rs c).ex ≠ .ret := by simp [hex]
      refine ⟨Ev.critEnter :: Ev.fetch QS_TX_CHUNK :: Ev.critExit ::
        ((sendLoopFlush rs c).evs ++ pre), e, ?_, ?_⟩
      · simp [hevs]
      · simp [List.countP_cons, List.countP_append, Ev.isErrSend, hcnt,
          sendLoopFlush_not_ret_no_err rs c hnr]
    · simp only [flushGo, hex] at h ⊢
      obtain ⟨pre, e, hevs, hcnt⟩ := sendLoopFlush_ret_evs rs c hex
      refine ⟨Ev.critEnter :: Ev.fetch QS_TX_CHUNK :: Ev.critExit :: pre, e, ?_, ?_⟩
      · simp [hevs]
      · simp [List.countP_cons, Ev.isErrSend, hcnt]
    · simp [flushGo, hex] at h

/-- Any nonempty oracle makes the send loop's first event a `send()`
call on exactly the current unsent span. -/
theorem sendLoopFlush_head_attempt :
    ∀ (rs : List SendRes) (data : List Nat), rs ≠ [] →
      ∃ t, (sendLoopFlush rs data).evs = Ev.attempt data :: t := by
  intro rs data h
  match rs with
  | [] => exact absurd rfl h
  | .fail e :: rs =>
    by_cases he : e = EWOULDBLOCK ∨ e = EAGAIN
    · exact ⟨Ev.sleep :: (sendLoopFlush rs data).evs, by simp [sendLoopFlush, he]⟩
    · exact ⟨[Ev.errSend e], by simp [sendLoopFlush, he]⟩
  | .ok m :: rs =>
    by_cases hm : m < data.length
    · exact ⟨Ev.sleep :: (sendLoopFlush rs (data.drop m)).evs,
        by simp [sendLoopFlush, hm]⟩
    · exact ⟨[], by simp [sendLoopFlush, hm]⟩

/-- C1: for every sequence of chunks C1..Cn returned by the ring
buffer's `getBlock` during a flush, the bytes passed to `send` by
`QS::onFlush`, concatenated in the order they were accepted by the
socket, equal the concatenation of C1..Cn in that order, with no byte
dropped, duplicated, or reordered, for every oracle of would-block and
partial-send responses under which the flush runs to completion. -/
theorem onFlush_delivers_chunks_in_order
    (sock : Int) (chunks : List (List Nat)) (rs : List SendRes)
    (h : (QS_onFlush sock chunks rs).out = .completed) :
    (QS_onFlush sock chunks rs).acc = chunks.flatten := by
  by_cases hs : sock = INVALID_SOCKET
  · simp [QS_onFlush, hs] at h
  · simp only [QS_onFlush, if_neg hs] at h ⊢
    exact flushGo_completed_acc sock chunks rs h

/-- Witness for C1: a concrete flush in which the first chunk sees a
would-block and then a partial send, and the bytes still come out as the
concatenation of the chunks. -/
theorem onFlush_delivers_chunks_in_order_witness :
    (QS_onFlush 7 [[1, 2, 3], [4, 5]]
      [.fail 11, .ok 2, .ok 9, .ok 5]).acc = [1, 2, 3, 4, 5] :=
  onFlush_delivers_chunks_in_order 7 [[1, 2, 3], [4, 5]]
    [.fail 11, .ok 2, .ok 9, .ok 5] (by decide)

/-- C2: in the send-retry loop of `QS::onFlush` and of `QS_output`, if a
send attempt on a chunk span of length `len` accepts `m` bytes with
`0 < m < len`, the next send attempt uses the data pointer advanced by
exactly `m` and the remaining length `len - m` — exactly offset `m` of
that span — and a backoff sleep occurs before that retry. -/
theorem partial_send_resumes_at_offset
    (m : Nat) (rs : List SendRes) (data : List Nat)
    (h0 : 0 < m) (hlt : m < data.length) (hne : rs ≠ []) :
    (∃ t, (sendLoopFlush (SendRes.ok m :: rs) data).evs
        = Ev.attempt data :: Ev.sleep :: Ev.attempt (data.drop m) :: t) ∧
    (∃ t, (sendLoopOutput (SendRes.ok m :: rs) data).evs
        = Ev.attempt data :: Ev.sleep :: Ev.attempt (data.drop m) :: t) ∧
    (data.drop m).length = data.length - m := by
  obtain ⟨t, ht⟩ := sendLoopFlush_head_attempt rs (data.drop m) hne
  refine ⟨⟨t, ?_⟩, ⟨t, ?_⟩, by simp⟩
  · simp [sendLoopFlush, hlt, ht]
  · simp [sendLoopOutput_eq_sendLoopFlush, sendLoopFlush, hlt, ht]

/-- Witness for C2: a partial send of 2 bytes out of 3 resumes at
offset 2 with 1 byte remaining, after a sleep. -/
theorem partial_send_resumes_at_offset_witness :
    (∃ t, (sendLoopFlush [SendRes.ok 2, SendRes.ok 9] [5, 6, 7]).evs
        = Ev.attempt [5, 6, 7] :: Ev.sleep :: Ev.attempt [7] :: t) ∧
    (∃ t, (sendLoopOutput [SendRes.ok 2, SendRes.ok 9] [5, 6, 7]).evs
        = Ev.attempt [5, 6, 7] :: Ev.sleep :: Ev.attempt [7] :: t) ∧
    ([7] : List Nat).length = 1 :=
  partial_send_resumes_at_offset 2 [SendRes.ok 9] [5, 6, 7]
    (by decide) (by decide) (by decide)

/-- C3: a would-block send failure (`errno` = `EWOULDBLOCK` or `EAGAIN`)
makes both send loops sleep and retry exactly the same unsent remainder
(same span, same length, same accepted bytes, same exit), never fetch a
chunk inside the loop, never drop the remainder (if the rest of the
oracle completes the chunk, the whole span is accepted), and never
surface the would-block as a failure. -/
theorem wouldblock_retries_same_remainder
    (e : Nat) (rs : List SendRes) (data : List Nat)
    (he : e = EWOULDBLOCK ∨ e = EAGAIN) :
    sendLoopFlush (SendRes.fail e :: rs) data =
      ⟨Ev.attempt data :: Ev.sleep :: (sendLoopFlush rs data).evs,
       (sendLoopFlush rs data).acc, (sendLoopFlush rs data).rest,
       (sendLoopFlush rs data).ex⟩ ∧
    sendLoopOutput (SendRes.fail e :: rs) data =
      ⟨Ev.attempt data :: Ev.sleep :: (sendLoopOutput rs data).evs,
       (sendLoopOutput rs data).acc, (sendLoopOutput rs data).rest,
       (sendLoopOutput rs data).ex⟩ ∧
    (∀ req, Ev.fetch req ∉ (sendLoopFlush (SendRes.fail e :: rs) data).evs) ∧
    ((sendLoopFlush rs data).ex = .brk →
      (sendLoopFlush (SendRes.fail e :: rs) data).acc = data) ∧
    (sendLoopFlush (SendRes.fail e :: rs) data).evs.countP Ev.isErrSend
      = (sendLoopFlush rs data).evs.countP Ev.isErrSend := by
  refine ⟨by simp [sendLoopFlush, he], by simp [sendLoopOutput, he], ?_, ?_, ?_⟩
  · intro req; exact sendLoopFlush_no_fetch (SendRes.fail e :: rs) data req
  · intro hb
    have : (sendLoopFlush (SendRes.fail e :: rs) data).ex = .brk := by
      simp [sendLoopFlush, he, hb]
    exact sendLoopFlush_brk_acc _ _ this
  · simp [sendLoopFlush, he, List.countP_cons, Ev.isErrSend]

/-- Witness for C3: a would-block with `errno = 11` retries the same
two-byte span and the chunk is then fully accepted. -/
theorem wouldblock_retries_same_remainder_witness :
    sendLoopFlush [SendRes.fail 11, SendRes.ok 2] [8, 9] =
      ⟨Ev.attempt [8, 9] :: Ev.sleep :: (sendLoopFlush [SendRes.ok 2] [8, 9]).evs,
       (sendLoopFlush [SendRes.ok 2] [8, 9]).acc,
       (sendLoopFlush [SendRes.ok 2] [8, 9]).rest,
       (sendLoopFlush [SendRes.ok 2] [8, 9]).ex⟩ ∧
    (sendLoopFlush [SendRes.fail 11, SendRes.ok 2] [8, 9]).acc = [8, 9] :=
  ⟨(wouldblock_retries_same_remainder 11 [SendRes.ok 2] [8, 9] (Or.inl rfl)).1,
   (wouldblock_retries_same_remainder 11 [SendRes.ok 2] [8, 9]
      (Or.inl rfl)).2.2.2.1 (by decide)⟩

/-- The drain loop never prints the invalid-socket diagnostic: that
diagnostic belongs to the precondition check only. -/
theorem flushGo_no_errInvalid :
    ∀ (sock : Int) (chunks : List (List Nat)) (rs : List SendRes),
      Ev.errInvalid ∉ (flushGo sock chunks rs).evs := by
  intro sock chunks
  induction chunks with
  | nil => intro rs; simp [flushGo]
  | cons c cs ih =>
    intro rs
    rcases hex : (sendLoopFlush rs c).ex with _ | _ | _ <;>
      simp [flushGo, hex, ih, sendLoopFlush_no_errInvalid rs c]

/-- The drain loop returns the socket handle it was given: `QS::onFlush`
never writes `l_sock`. -/
theorem flushGo_sock_unchanged :
    ∀ (sock : Int) (chunks : List (List Nat)) (rs : List SendRes),
      (flushGo sock chunks rs).sock = sock := by
  intro sock chunks
  induction chunks with
  | nil => intro rs; rfl
  | cons c cs ih =>
    intro rs
    rcases hex : (sendLoopFlush rs c).ex with _ | _ | _ <;> simp [flushGo, hex, ih]

/-- C6: if a send attempt in `QS::onFlush` fails with an error other
than would-block, the flush aborts at once: its trace ends with exactly
one send-error diagnostic and contains no event after it (no further
send or fetch), no other send-error diagnostic and no invalid-socket
report occurs, and the socket handle is returned unchanged. -/
theorem onFlush_hard_error_aborts
    (sock : Int) (chunks : List (List Nat)) (rs : List SendRes)
    (h : (QS_onFlush sock chunks rs).out = .aborted) :
    (∃ pre e, (QS_onFlush sock chunks rs).evs = pre ++ [Ev.errSend e] ∧
       pre.countP Ev.isErrSend = 0) ∧
    (QS_onFlush sock chunks rs).evs.countP Ev.isErrSend = 1 ∧
    Ev.errInvalid ∉ (QS_onFlush sock chunks rs).evs ∧
    (QS_onFlush sock chunks rs).sock = sock := by
  by_cases hs : sock = INVALID_SOCKET
  · simp [QS_onFlush, hs] at h
  · simp only [QS_onFlush, if_neg hs] at h ⊢
    obtain ⟨pre, e, hevs, hcnt⟩ := flushGo_aborted_evs sock chunks rs h
    refine ⟨⟨pre, e, hevs, hcnt⟩, ?_, ?_, ?_⟩
    · simp [hevs, List.countP_append, hcnt, Ev.isErrSend]
    · exact flushGo_no_errInvalid sock chunks rs
    · exact flushGo_sock_unchanged sock chunks rs

/-- Witness for C6: a flush whose first chunk hits `errno = 13` aborts
with the single diagnostic as its last event, leaving the socket. -/
theorem onFlush_hard_error_aborts_witness :
    (∃ pre e, (QS_onFlush 7 [[1, 2], [3]] [SendRes.fail 13]).evs
        = pre ++ [Ev.errSend e] ∧ pre.countP Ev.isErrSend = 0) ∧
    (QS_onFlush 7 [[1, 2], [3]] [SendRes.fail 13]).evs.countP Ev.isErrSend = 1 ∧
    Ev.errInvalid ∉ (QS_onFlush 7 [[1, 2], [3]] [SendRes.fail 13]).evs ∧
    (QS_onFlush 7 [[1, 2], [3]] [SendRes.fail 13]).sock = 7 :=
  onFlush_hard_error_aborts 7 [[1, 2], [3]] [SendRes.fail 13] (by decide)

/-- Counterexample to C7: `QS_rx_input` called with the invalid socket
handle reports no diagnostic at all — its trace contains no error
report, only the `recv()` attempt the claim says must not happen. -/
theorem rx_input_invalid_reports_nothing_cex :
    QS_rx_input INVALID_SOCKET (-1) ⟨5, 3⟩ = ([Ev.recvAttempt], ⟨5, 3⟩, false) ∧
    Ev.errInvalid ∉ (QS_rx_input INVALID_SOCKET (-1) ⟨5, 3⟩).1 ∧
    (∀ e, Ev.errSend e ∉ (QS_rx_input INVALID_SOCKET (-1) ⟨5, 3⟩).1) ∧
    Ev.recvAttempt ∈ (QS_rx_input INVALID_SOCKET (-1) ⟨5, 3⟩).1 := by
  refine ⟨by decide, by decide, ?_, by decide⟩
  intro e
  simp [QS_rx_input]

/-- C7 as amended: with the invalid socket handle, `QS::onFlush` and
`QS_output` print the diagnostic and return with no send, no fetch and
the handle unchanged; `QS_rx_input` performs its one `recv()` call —
which fails on the invalid handle, so its result is nonpositive — and
then changes no state, invokes no parser, and prints nothing.  None of
the three terminates the process. -/
theorem invalid_socket_calls_are_noops
    (chunks : List (List Nat)) (rs : List SendRes)
    (r : Int) (st : RxPriv) (hr : r ≤ 0) :
    QS_onFlush INVALID_SOCKET chunks rs
      = ⟨[Ev.errInvalid], [], INVALID_SOCKET, .noSocket⟩ ∧
    QS_output INVALID_SOCKET chunks rs
      = ⟨[Ev.errInvalid], [], INVALID_SOCKET, .noSocket⟩ ∧
    QS_rx_input INVALID_SOCKET r st = ([Ev.recvAttempt], st, false) := by
  refine ⟨by simp [QS_onFlush], by simp [QS_output], ?_⟩
  have : ¬ (0 < r) := by omega
  simp [QS_rx_input, this]

/-- Witness for the amended C7 at concrete inputs. -/
theorem invalid_socket_calls_are_noops_witness :
    QS_onFlush INVALID_SOCKET [[1]] [SendRes.ok 1]
      = ⟨[Ev.errInvalid], [], INVALID_SOCKET, .noSocket⟩ ∧
    QS_output INVALID_SOCKET [[1]] [SendRes.ok 1]
      = ⟨[Ev.errInvalid], [], INVALID_SOCKET, .noSocket⟩ ∧
    QS_rx_input INVALID_SOCKET (-1) ⟨2, 9⟩ = ([Ev.recvAttempt], ⟨2, 9⟩, false) :=
  invalid_socket_calls_are_noops [[1]] [SendRes.ok 1] (-1) ⟨2, 9⟩ (by decide)

/-- C8: `QS_output` behaves as a single iteration of `QS::onFlush`'s
drain loop: the two spelled-out send loops are the same function; on a
ring buffer yielding exactly one chunk, `QS_output` and `QS::onFlush`
issue the same sequence of `send()` calls, accept the same bytes, and
end in the same outcome; on an empty ring buffer `QS_output` does one
balanced fetch and leaves nothing pending; and it always performs
exactly one `getBlock` call, with the full capacity `QS_TX_CHUNK`. -/
theorem output_single_iteration_of_flush :
    (∀ (rs : List SendRes) (data : List Nat),
       sendLoopOutput rs data = sendLoopFlush rs data) ∧
    (∀ (sock : Int) (c : List Nat) (rs : List SendRes),
       (QS_output sock [c] rs).evs.filter Ev.isAttempt
         = (QS_onFlush sock [c] rs).evs.filter Ev.isAttempt ∧
       (QS_output sock [c] rs).acc = (QS_onFlush sock [c] rs).acc ∧
       (QS_output sock [c] rs).out = (QS_onFlush sock [c] rs).out) ∧
    (∀ (sock : Int) (rs : List SendRes), sock ≠ INVALID_SOCKET →
       QS_output sock [] rs
         = ⟨[Ev.critEnter, Ev.fetch QS_TX_CHUNK, Ev.critExit], [], sock, .completed⟩) ∧
    (∀ (sock : Int) (chunks : List (List Nat)) (rs : List SendRes),
       sock ≠ INVALID_SOCKET →
       (QS_output sock chunks rs).evs.countP Ev.isFetch = 1 ∧
       Ev.fetch QS_TX_CHUNK ∈ (QS_output sock chunks rs).evs) := by
  have hfetch0 : ∀ (rs : List SendRes) (data : List Nat),
      (sendLoopFlush rs data).evs.countP Ev.isFetch = 0 := by
    intro rs data
    rw [List.countP_eq_zero]
    intro ev hev
    cases ev <;> simp [Ev.isFetch]
    case fetch req => exact absurd hev (sendLoopFlush_no_fetch rs data req)
  refine ⟨sendLoopOutput_eq_sendLoopFlush, ?_, ?_, ?_⟩
  · intro sock c rs
    by_cases hs : sock = INVALID_SOCKET
    · simp [QS_output, QS_onFlush, hs]
    · simp only [QS_output, QS_onFlush, if_neg hs, sendLoopOutput_eq_sendLoopFlush]
      rcases hex : (sendLoopFlush rs c).ex with _ | _ | _
      · simp [flushGo, hex, List.filter_append, Ev.isAttempt]
      · simp [flushGo, hex]
      · simp [flushGo, hex]
  · intro sock rs hs
    simp [QS_output, hs]
  · intro sock chunks rs hs
    match chunks with
    | [] => simp [QS_output, hs, List.countP_cons, Ev.isFetch]
    | c :: cs =>
      simp only [QS_output, if_neg hs]
      rcases hex : (sendLoopOutput rs c).ex with _ | _ | _ <;>
        simp [hex, List.countP_cons, Ev.isFetch, sendLoopOutput_eq_sendLoopFlush, hfetch0]

/-- Witness for C8's conditional parts at a concrete socket and chunk. -/
theorem output_single_iteration_of_flush_witness :
    QS_output 5 [] [SendRes.ok 1]
      = ⟨[Ev.critEnter, Ev.fetch QS_TX_CHUNK, Ev.critExit], [], 5, .completed⟩ ∧
    (QS_output 5 [[1, 2]] [SendRes.ok 2]).evs.countP Ev.isFetch = 1 :=
  ⟨output_single_iteration_of_flush.2.2.1 5 [SendRes.ok 1] (by decide),
   (output_single_iteration_of_flush.2.2.2 5 [[1, 2]] [SendRes.ok 2] (by decide)).1⟩

/-- Counterexample to C4: with two candidates, where `socket()` succeeds
on the first but `connect()` fails on it and the second would connect,
the loop runs on the first candidate only and ends with the invalid
handle, while the claimed skip-and-continue iteration (modelled by
`tryCandidatesSpec`) would reach the second candidate and connect. -/
theorem connect_fail_skips_no_candidate_cex :
    tryCandidates INVALID_SOCKET [⟨3, false⟩, ⟨4, true⟩] = (1, INVALID_SOCKET) ∧
    tryCandidatesSpec INVALID_SOCKET [⟨3, false⟩, ⟨4, true⟩] = (2, 4) ∧
    ((1 : Nat), INVALID_SOCKET) ≠ ((2 : Nat), (4 : Int)) := by
  decide

/-- C4 as amended: candidates are tried in order, and a candidate on
which socket creation fails is skipped; but iteration stops at the first
candidate on which socket creation succeeds, whatever its connect
outcome — on connect success the handle is that socket, on connect
failure the socket is closed, the handle is left invalid, and no further
candidate is attempted.  If socket creation fails on every candidate,
all are tried and the handle ends invalid (unchanged when the list is
empty). -/
theorem connect_loop_first_socket_ends_iteration :
    ∀ (sock0 : Int) (cands : List Cand),
      tryCandidates sock0 cands =
        match cands.dropWhile (fun c => c.ret == INVALID_SOCKET) with
        | [] => (cands.length, if cands.isEmpty then sock0 else INVALID_SOCKET)
        | c :: _ =>
          ((cands.takeWhile (fun c => c.ret == INVALID_SOCKET)).length + 1,
           if c.connOk then c.ret else INVALID_SOCKET) := by
  intro sock0 cands
  induction cands generalizing sock0 with
  | nil => rfl
  | cons c rest ih =>
    by_cases h : c.ret = INVALID_SOCKET
    · simp only [tryCandidates, h, ne_eq, not_true_eq_false, if_false,
        List.dropWhile_cons, List.takeWhile_cons, beq_self_eq_true, if_true]
      rw [ih INVALID_SOCKET]
      cases hd : rest.dropWhile (fun c => c.ret == INVALID_SOCKET) with
      | nil => simp [hd]
      | cons c' t => simp [hd]
    · have hb : (c.ret == INVALID_SOCKET) = false := by
        simp [h]
      simp [tryCandidates, h, List.dropWhile_cons, List.takeWhile_cons, hb]

/-- Colon-free scans copy verbatim: if no colon occurs among the first
`n + 1` characters, the copy loop takes exactly the first `n` characters
and stops with the scan position right after them. -/
theorem extractHost_no_colon :
    ∀ (src : List Char) (n : Nat), (∀ c ∈ src.take (n + 1), c ≠ ':') →
      extractHost src n = (src.take n, src.drop n) := by
  intro src
  induction src with
  | nil => intro n _; simp [extractHost]
  | cons c rest ih =>
    intro n h
    have hc : c ≠ ':' := h c (by simp)
    match n with
    | 0 => simp [extractHost, hc]
    | k + 1 =>
      have h' : ∀ x ∈ rest.take (k + 1), x ≠ ':' := by
        intro x hx
        exact h x (by simp [hx])
      simp [extractHost, hc, ih k h']

/-- Counterexample to C5: an input whose host portion is 128 characters
long followed by `":7000"` parses to the truncated 127-character host
but the service stays at the default `"6601"`: the scan position after
truncation sits inside the host, so the trailing `":7000"` is never
seen, contrary to the claim that it is still parsed as the service. -/
theorem truncated_host_loses_service_cex :
    (parseEndpoint (some (List.replicate 128 'a' ++ ":7000".toList))).2
      = "6601".toList ∧
    (parseEndpoint (some (List.replicate 128 'a' ++ ":7000".toList))).1
      = List.replicate 127 'a' ∧
    "6601".toList ≠ "7000".toList := by
  refine ⟨?_, ?_, by decide⟩ <;> decide

/-- C5 as amended: `"example.org:7000"` parses to host `example.org` and
service `7000`; `"example.org"` parses to host `example.org` and the
default service `6601`; a null configuration string gives host
`localhost`; and when the host portion fills the whole 127-character
capacity without reaching a colon, the host is truncated to the first
127 characters and the service stays at the default — the text after the
un-truncated host portion is not reached. -/
theorem endpoint_parsing_amended :
    parseEndpoint (some "example.org:7000".toList)
      = ("example.org".toList, "7000".toList) ∧
    parseEndpoint (some "example.org".toList)
      = ("example.org".toList, "6601".toList) ∧
    parseEndpoint none = ("localhost".toList, "6601".toList) ∧
    (∀ src : List Char, 128 ≤ src.length → (∀ c ∈ src.take 128, c ≠ ':') →
       parseEndpoint (some src) = (src.take 127, "6601".toList)) := by
  refine ⟨by decide, by decide, by decide, ?_⟩
  intro src hlen hcolon
  have htake : (127 : Nat) + 1 = 128 := by norm_num
  have he : extractHost src 127 = (src.take 127, src.drop 127) := by
    refine extractHost_no_colon src 127 ?_
    rw [htake]
    exact hcolon
  cases hd : src.drop 127 with
  | nil =>
    exfalso
    have : (src.drop 127).length = src.length - 127 := List.length_drop 127 src
    rw [hd] at this
    simp at this
    omega
  | cons a t =>
    have ha : a ∈ src.take 128 := by
      have hsplit : src.take 128 = src.take 127 ++ (src.drop 127).take 1 := by
        rw [← htake, List.take_add]
      rw [hsplit, hd]
      simp
    have ha' : a ≠ ':' := hcolon a ha
    show (let src' := src
          let p := extractHost src' HOSTNAME_CAP
          match p.2 with
          | c :: s => if c = ':' then (p.1, s) else (p.1, "6601".toList)
          | [] => (p.1, "6601".toList)) = (src.take 127, "6601".toList)
    have : extractHost src HOSTNAME_CAP = (src.take 127, a :: t) := by
      rw [show HOSTNAME_CAP = 127 from rfl, he, hd]
    simp [this, ha']

/-- Witness for the amended C5 at a concrete 128-character host. -/
theorem endpoint_parsing_amended_witness :
    parseEndpoint (some (List.replicate 128 'b'))
      = (List.replicate 127 'b', "6601".toList) := by
  have h := endpoint_parsing_amended.2.2.2 (List.replicate 128 'b')
    (by simp) (by intro c hc; simp [List.take_replicate] at hc; simp [hc])
  rw [h, List.take_replicate]
  norm_num

/-- C9: `QS::onGetTime` converts the monotonic reading
`(tv_sec, tv_nsec)` to `tv_sec * 10000000 + tv_nsec / 100` — a
fixed-point counter in units of 100 ns — and for two readings where the
second is not earlier than the first (lexicographically, with a valid
nanosecond field), the returned pre-truncation counter values are
non-decreasing. -/
theorem ongettime_formula_and_monotone :
    (∀ s n, onGetTime s n = s * 10000000 + n / 100) ∧
    (∀ s1 n1 s2 n2, n1 < 1000000000 →
       (s1 < s2 ∨ (s1 = s2 ∧ n1 ≤ n2)) →
       onGetTime s1 n1 ≤ onGetTime s2 n2) := by
  refine ⟨fun s n => rfl, ?_⟩
  intro s1 n1 s2 n2 hn h
  rcases h with h | ⟨rfl, h⟩ <;> simp only [onGetTime] <;> omega

/-- Witness for C9: reading (1 s, 500 ns) before (2 s, 0 ns) gives
non-decreasing counter values. -/
theorem ongettime_formula_and_monotone_witness :
    onGetTime 1 500 ≤ onGetTime 2 0 :=
  ongettime_formula_and_monotone.2 1 500 2 0 (by norm_num) (Or.inl (by norm_num))

/-- The copy loop never extracts more characters than its capacity
argument allows. -/
theorem extractHost_length_le :
    ∀ (src : List Char) (n : Nat), (extractHost src n).1.length ≤ n := by
  intro src
  induction src with
  | nil => intro n; simp [extractHost]
  | cons c rest ih =>
    intro n
    by_cases hc : c = ':'
    · simp [extractHost, hc]
    · match n with
      | 0 => simp [extractHost, hc]
      | k + 1 =>
        simp only [extractHost, if_neg hc]
        simpa using ih k

/-- C10: for every input string, the host-copy loop writes at most 127
characters plus one terminating NUL into the 128-byte `hostName` buffer
— the write stays in bounds and the buffer content is NUL-terminated on
every path — and the parsed host never exceeds 127 characters. -/
theorem hostname_writes_stay_in_bounds :
    (∀ src : List Char,
       (extractHost src HOSTNAME_CAP).1.length ≤ 127 ∧
       (hostWrites src).length ≤ 128 ∧
       (hostWrites src).getLast? = some (Char.ofNat 0)) ∧
    (∀ arg : Option (List Char), (parseEndpoint arg).1.length ≤ 127) := by
  constructor
  · intro src
    have h : (extractHost src HOSTNAME_CAP).1.length ≤ 127 :=
      extractHost_length_le src HOSTNAME_CAP
    refine ⟨h, ?_, ?_⟩
    · simp only [hostWrites, List.length_append, List.length_cons, List.length_nil]
      omega
    · simp [hostWrites]
  · intro arg
    have hfst : (parseEndpoint arg).1
        = (extractHost (arg.getD "localhost".toList) HOSTNAME_CAP).1 := by
      simp only [parseEndpoint]
      rcases hd : (extractHost (arg.getD "localhost".toList) HOSTNAME_CAP).2 with _ | ⟨a, t⟩
      · rfl
      · by_cases ha : a = ':' <;> simp [ha]
    rw [hfst]
    exact extractHost_length_le _ HOSTNAME_CAP
